import Mathlib

/-!
Verification of the ALEIS (Aadhaar Life-Event Intelligence System) repository
against its specification.

The development shallowly embeds the repository's core logic:
  * `analytics/anomaly_detection.py` (`detect_anomalies`),
  * `features/temporal_features.py` (`temporal_concentration`),
  * `validation/regional_consistency.py` (`check_region_coverage`),
  * the consolidation / orchestration logic of `main.py` (`run_aleis_pipeline`).

Numeric modelling: the Python code computes with IEEE floats; here values are
exact rationals (rounding is abstracted away, which is the reading the spec
itself takes when it speaks of a standard deviation being "exactly zero").
IEEE NaN is modelled structurally: pandas `Series.std()` (ddof = 1) is NaN for
a series of fewer than two elements, a 0/0 standardized score is NaN, and a
NaN-valued result is represented by `Option.none`.  Square roots land in `ℝ`;
whenever a comparison against a square root occurs inside a Boolean decision
of the code, it is decided by the exact algebraic equivalence
`|d| / sqrt v > t ↔ t < 0 ∨ d ^ 2 > t ^ 2 * v` (for `v > 0`), proved below as
`abs_div_sqrt_gt_iff`, keeping the embedded decision procedures executable.
-/

namespace ALEIS

/-- Arithmetic mean of a series, `series.mean()`.  For the empty series the
rational convention `x / 0 = 0` applies; callers that care (pandas returns NaN
there) guard for emptiness explicitly, see `pandasMean`. -/
def mean (xs : List ℚ) : ℚ := xs.sum / xs.length

/-- Sum of squared deviations from the mean, the common numerator of the
ddof = 0 and ddof = 1 variances. -/
def sqDevSum (xs : List ℚ) : ℚ := (xs.map (fun x => (x - mean xs) ^ 2)).sum

/-- Population variance (ddof = 0), the variance underlying
`scipy.stats.zscore`'s standard deviation. -/
def popVar (xs : List ℚ) : ℚ := sqDevSum xs / xs.length

/-- The test `series.std() == 0` of `anomaly_detection.py` line 9.  Pandas
`Series.std()` uses ddof = 1, so it is NaN for series of length < 2 (and the
comparison `NaN == 0` is False); for length ≥ 2 it is
`sqrt (sqDevSum / (n - 1))`, which is zero exactly when `sqDevSum = 0`. -/
def sampleStdIsZero (xs : List ℚ) : Bool :=
  decide (2 ≤ xs.length ∧ sqDevSum xs = 0)

/-- Flag of a single element in the z-score branch of `detect_anomalies`
(lines 12–16): `np.abs(np.nan_to_num(z)) > threshold` for
`z = (x - mean) / sqrt popVar` (scipy `zscore`, ddof = 0).
If `popVar = 0` every deviation is zero, `z = 0/0 = NaN`, and `nan_to_num`
coerces it to `0`, so the flag is `0 > t`.  Otherwise
`|z| > t ↔ t < 0 ∨ (x - mean) ^ 2 > t ^ 2 * popVar` (see
`abs_div_sqrt_gt_iff`), which is decidable over `ℚ`. -/
def zflag (xs : List ℚ) (t x : ℚ) : Bool :=
  if popVar xs = 0 then decide (0 > t)
  else decide (t < 0 ∨ (x - mean xs) ^ 2 > t ^ 2 * popVar xs)

/-- `detect_anomalies` of `analytics/anomaly_detection.py`:
if `series.std() == 0` return `[False] * len(series)`, else return
`np.abs(np.nan_to_num(zscore(series))) > threshold` elementwise. -/
def detect_anomalies (xs : List ℚ) (t : ℚ) : List Bool :=
  if sampleStdIsZero xs then xs.map (fun _ => false)
  else xs.map (zflag xs t)

/-- Pandas `series.mean()`: NaN (`none`) on the empty series, the arithmetic
mean otherwise. -/
def pandasMean (xs : List ℚ) : Option ℚ :=
  if xs = [] then none else some (mean xs)

/-- Pandas `series.std()` (ddof = 1): NaN (`none`) for fewer than two
elements, `sqrt (sqDevSum / (n - 1))` otherwise. -/
noncomputable def pandasStd (xs : List ℚ) : Option ℝ :=
  if 2 ≤ xs.length then
    some (Real.sqrt ((sqDevSum xs / ((xs.length : ℚ) - 1) : ℚ) : ℝ))
  else none

/-- `temporal_concentration` of `features/temporal_features.py`:
`mu = series.mean(); if mu == 0: return 0.0; return series.std() / mu`.
An empty series has NaN mean, `NaN == 0` is False and `NaN / NaN` is NaN;
a NaN standard deviation likewise propagates through the division. -/
noncomputable def temporal_concentration (xs : List ℚ) : Option ℝ :=
  match pandasMean xs with
  | none => none
  | some mu => if mu = 0 then some 0 else (pandasStd xs).map (fun s => s / (mu : ℝ))

/-- Pandas `df[col].nunique()`: the number of distinct non-null entries of a
column (nulls are dropped by default). -/
def nunique (col : List (Option String)) : ℕ :=
  (col.filterMap id).dedup.length

/-- `check_region_coverage` of `validation/regional_consistency.py`:
`if df[region_col].nunique() < 1: raise Warning("Low regional coverage detected")`.
The raised warning is modelled as `Except.error`. -/
def check_region_coverage (col : List (Option String)) : Except String Unit :=
  if nunique col < 1 then Except.error "Low regional coverage detected"
  else Except.ok ()

/-- A (state, district, year, month) region-month key, the join key of the
consolidation step of `main.py`. -/
structure Key where
  state : String
  district : String
  year : Int
  month : Int
  deriving DecidableEq, Repr

/-- Value of the single matching row of a single-value-column aggregate table
for a key, `none` when the key is absent.  Monthly aggregate tables carry one
row per key, so first-match lookup is the pandas merge semantics. -/
def keyLookup (t : List (Key × ℚ)) (k : Key) : Option ℚ :=
  (t.find? (fun r => decide (r.1 = k))).map Prod.snd

/-- The consolidation step of `main.py` lines 131–136:
`pd.merge(enrol_agg, demo_agg, on=["state","district","year","month"],
how="outer").fillna(0)`.  Rows of the left table appear with the matching
right value (0 after `fillna` when unmatched), followed by the right-only
rows with the left value filled at 0. -/
def outerMergeFill0 (t1 t2 : List (Key × ℚ)) : List (Key × ℚ × ℚ) :=
  t1.map (fun r => (r.1, r.2, (keyLookup t2 r.1).getD 0)) ++
  (t2.filter (fun r => decide (keyLookup t1 r.1 = none))).map
    (fun r => (r.1, 0, r.2))

/-- Lookup in a two-value-column consolidated table. -/
def keyLookup3 (t : List (Key × ℚ × ℚ)) (k : Key) : Option (ℚ × ℚ) :=
  (t.find? (fun r => decide (r.1 = k))).map Prod.snd

/-- The optional second merge of `main.py` lines 138–142: outer merge of the
consolidated (enrolments, total_updates) table with the biometric aggregate,
filled at 0. -/
def outerMerge3Fill0 (t : List (Key × ℚ × ℚ)) (b : List (Key × ℚ)) :
    List (Key × ℚ × ℚ × ℚ) :=
  t.map (fun r => (r.1, r.2.1, r.2.2, (keyLookup b r.1).getD 0)) ++
  (b.filter (fun r => decide (keyLookup3 t r.1 = none))).map
    (fun r => (r.1, 0, 0, r.2))

/-- The consolidated table of `main.py`: when the optional biometric source is
absent the table has only the `enrolments` and `total_updates` numeric
columns; when it is present a `biometric_updates` column is added. -/
inductive ConsTable where
  | noBio (rows : List (Key × ℚ × ℚ))
  | withBio (rows : List (Key × ℚ × ℚ × ℚ))
  deriving DecidableEq, Repr

/-- The `enrolments` column of the consolidated table. -/
def ConsTable.enrolments : ConsTable → List ℚ
  | ConsTable.noBio rows => rows.map (fun r => r.2.1)
  | ConsTable.withBio rows => rows.map (fun r => r.2.1)

/-- The `total_updates` column of the consolidated table. -/
def ConsTable.total_updates : ConsTable → List ℚ
  | ConsTable.noBio rows => rows.map (fun r => r.2.2)
  | ConsTable.withBio rows => rows.map (fun r => r.2.2.1)

/-- The `district` column of the consolidated table (no entry is null). -/
def ConsTable.districts : ConsTable → List (Option String)
  | ConsTable.noBio rows => rows.map (fun r => some r.1.district)
  | ConsTable.withBio rows => rows.map (fun r => some r.1.district)

/-- Modelled from the spec: `check_empty` of `ALEIS/validation/sanity_checks.py`
is imported by `main.py` but its body is not in the repository snapshot; per
spec §4.6 the non-empty check "fails if the input table has zero rows". -/
def check_empty (t : List (Key × ℚ)) : Except String Unit :=
  if t = [] then Except.error "empty input table" else Except.ok ()

/-- Modelled from the spec: `validate_non_negative` of
`ALEIS/pipelines/validate.py` is imported by `main.py` but its body is not in
the repository snapshot; per spec §4.6 the non-negative check "fails if any
value in a named column is negative". -/
def validate_non_negative (vals : List ℚ) : Except String Unit :=
  if vals.any (fun v => decide (v < 0)) then
    Except.error "negative value in column"
  else Except.ok ()

/-- The consolidation-and-validation portion of `run_aleis_pipeline`
(`main.py`): the per-source monthly aggregates come in (aggregation of an
empty raw table is empty, so `check_empty` on the raw tables is applied to
the aggregates), `bio = none` models an absent
`data/raw/biometric/biometric.csv` (lines 91–93: an absent file loads as an
empty DataFrame, whose aggregation is skipped and left empty, and lines
138–142 skip the biometric merge for an empty aggregate).  Validation
(lines 145–147) runs on the consolidated table. -/
def run_consolidation (enrol demo : List (Key × ℚ))
    (bio : Option (List (Key × ℚ))) : Except String ConsTable := do
  let _ ← check_empty enrol
  let _ ← check_empty demo
  let base := outerMergeFill0 enrol demo
  let table : ConsTable :=
    match bio with
    | none => ConsTable.noBio base
    | some b =>
        if b = [] then ConsTable.noBio base
        else ConsTable.withBio (outerMerge3Fill0 base b)
  let _ ← validate_non_negative table.enrolments
  let _ ← validate_non_negative table.total_updates
  let _ ← check_region_coverage table.districts
  pure table

/-- The LEPI weight configuration (`config/indicators.yaml`, key `lepi`). -/
structure LepiWeights where
  frequency : ℚ
  diversity : ℚ
  temporal : ℚ
  deriving DecidableEq, Repr

/-- The LEPI indicator stage of `main.py` lines 159–164: `compute_lepi` is
called with `freq` the `total_updates` column, `diversity` the literal scalar
`1`, `temporal` the `temporal_concentration` column (whose entries may be
NaN, hence `Option ℝ`), and the configured weights.  The body of
`compute_lepi` (`ALEIS/indicators/lepi.py`) is not in the repository
snapshot, so it is kept abstract as the parameter `compute_lepi`; the claim
under verification is about the call site only. -/
def lepiStage (compute_lepi : ℚ → ℚ → Option ℝ → LepiWeights → ℝ)
    (w : LepiWeights) (rows : List (Key × ℚ × ℚ)) (tcCol : List (Option ℝ)) :
    List ℝ :=
  List.zipWith (fun r tc => compute_lepi r.2.2 1 tc w) rows tcCol

/-- The enrolment aggregate of spec §8 scenario 6: rows
(MH, Pune, 2025, 1, 100) and (MH, Pune, 2025, 2, 120). -/
def enrolScenario : List (Key × ℚ) :=
  [(⟨"MH", "Pune", 2025, 1⟩, 100), (⟨"MH", "Pune", 2025, 2⟩, 120)]

/-- The demographic aggregate of spec §8 scenario 6: row
(MH, Pune, 2025, 1, 80). -/
def demoScenario : List (Key × ℚ) :=
  [(⟨"MH", "Pune", 2025, 1⟩, 80)]

/-- Every squared deviation is nonnegative, so their sum is. -/
lemma sqDevSum_nonneg (xs : List ℚ) : 0 ≤ sqDevSum xs := by
  apply List.sum_nonneg
  intro y hy
  rcases List.mem_map.1 hy with ⟨x, _, rfl⟩
  exact sq_nonneg _

lemma popVar_nonneg (xs : List ℚ) : 0 ≤ popVar xs :=
  div_nonneg (sqDevSum_nonneg xs) (Nat.cast_nonneg _)

/-- Algebraic elimination of the square root from the threshold comparison:
for a positive variance `v`, `|d| / sqrt v > t` iff `t` is negative or
`d ^ 2 > t ^ 2 * v`. -/
lemma abs_div_sqrt_gt_iff (d v t : ℝ) (hv : 0 < v) :
    |d| / Real.sqrt v > t ↔ (t < 0 ∨ d ^ 2 > t ^ 2 * v) := by
  have hs : 0 < Real.sqrt v := Real.sqrt_pos.mpr hv
  by_cases ht : t < 0
  · simp only [ht, true_or, iff_true]
    exact lt_of_lt_of_le ht (div_nonneg (abs_nonneg d) hs.le)
  · push_neg at ht
    have hiff1 : |d| / Real.sqrt v > t ↔ t * Real.sqrt v < |d| := lt_div_iff₀ hs
    have hsq : t * Real.sqrt v < |d| ↔ (t * Real.sqrt v) ^ 2 < |d| ^ 2 :=
      (pow_lt_pow_iff_left₀ (mul_nonneg ht hs.le) (abs_nonneg d) two_ne_zero).symm
    have hval : (t * Real.sqrt v) ^ 2 = t ^ 2 * v := by
      rw [mul_pow, Real.sq_sqrt hv.le]
    rw [hiff1, hsq, hval, sq_abs]
    simp [not_lt.mpr ht]

/-- Auxiliary computation for constant series: the mean of `replicate n c`
is `c` when `n ≥ 1`. -/
lemma mean_replicate (n : ℕ) (c : ℚ) (hn : 1 ≤ n) :
    mean (List.replicate n c) = c := by
  have hne : ((n : ℚ)) ≠ 0 := Nat.cast_ne_zero.mpr (by omega)
  simp only [mean, List.sum_replicate, List.length_replicate, nsmul_eq_mul]
  rw [mul_comm, mul_div_assoc, div_self hne, mul_one]

/-- A constant series has zero sum of squared deviations. -/
lemma sqDevSum_replicate (n : ℕ) (c : ℚ) (hn : 1 ≤ n) :
    sqDevSum (List.replicate n c) = 0 := by
  simp [sqDevSum, List.map_replicate, mean_replicate n c hn, List.sum_replicate]

/-- The element flag of the z-score branch never becomes true when the
threshold is lowered: it is antitone in the threshold. -/
lemma zflag_antitone (xs : List ℚ) {t1 t2 x : ℚ} (hle : t1 ≤ t2)
    (hf : zflag xs t2 x = true) : zflag xs t1 x = true := by
  unfold zflag at hf ⊢
  by_cases hv : popVar xs = 0
  · rw [if_pos hv] at hf ⊢
    rw [decide_eq_true_iff] at hf ⊢
    exact lt_of_le_of_lt hle hf
  · rw [if_neg hv] at hf ⊢
    rw [decide_eq_true_iff] at hf ⊢
    rcases hf with hf | hf
    · exact Or.inl (lt_of_le_of_lt hle hf)
    · by_cases ht1 : t1 < 0
      · exact Or.inl ht1
      · push_neg at ht1
        refine Or.inr (lt_of_le_of_lt ?_ hf)
        have hsq : t1 ^ 2 ≤ t2 ^ 2 := pow_le_pow_left₀ ht1 hle 2
        exact mul_le_mul_of_nonneg_right hsq (popVar_nonneg xs)

/-- Claim C1 counterexample: the one-element (hence constant, length ≥ 1)
series `[5]` with threshold `-1` is flagged `[True]`, not all-false: the
pandas sample standard deviation of one element is NaN so the zero-variance
short-circuit is not taken, the standardized score is NaN, `nan_to_num`
coerces it to `0`, and `0 > -1` holds.  This refutes the claim's "every
threshold value". -/
theorem C1_counterexample :
    detect_anomalies [(5 : ℚ)] (-1) = [true] ∧
      detect_anomalies [(5 : ℚ)] (-1) ≠ List.replicate 1 false := by
  constructor
  · norm_num [detect_anomalies, sampleStdIsZero, sqDevSum, mean, zflag, popVar]
  · norm_num [detect_anomalies, sampleStdIsZero, sqDevSum, mean, zflag, popVar]

/-- Claim C1 (amended): for every constant numeric series of length ≥ 1,
`detect_anomalies` returns an all-false flag sequence and does not raise,
for every threshold when the series has length ≥ 2 (the zero-standard-deviation
short-circuit) and for every nonnegative threshold when it has length 1 (the
NaN-to-zero coercion, whose coerced score 0 only exceeds a negative
threshold). -/
theorem C1_amended_all_false (c : ℚ) (n : ℕ) (t : ℚ) (hn : 1 ≤ n)
    (ht : 2 ≤ n ∨ 0 ≤ t) :
    detect_anomalies (List.replicate n c) t = List.replicate n false := by
  by_cases h2 : 2 ≤ n
  · have hguard : sampleStdIsZero (List.replicate n c) = true := by
      simp [sampleStdIsZero, sqDevSum_replicate n c hn, h2]
    simp [detect_anomalies, hguard, List.map_replicate]
  · have hn1 : n = 1 := by omega
    have ht0 : 0 ≤ t := by
      rcases ht with h | h
      · exact absurd h h2
      · exact h
    subst hn1
    rw [List.replicate_one]
    have hguard : sampleStdIsZero [c] = false := by
      simp [sampleStdIsZero]
    have hsq : sqDevSum [c] = 0 := by
      have h := sqDevSum_replicate 1 c (le_refl 1)
      rwa [List.replicate_one] at h
    have hvar : popVar [c] = 0 := by
      simp [popVar, hsq]
    have hz : zflag [c] t c = false := by
      simp only [zflag, if_pos hvar, gt_iff_lt, decide_eq_false_iff_not, not_lt]
      exact ht0
    simp [detect_anomalies, hguard, hz]

/-- Claim C1 witness: a concrete instance of the amended theorem, the
constant series `[5, 5, 5]` at threshold `-1`. -/
theorem C1_witness :
    detect_anomalies (List.replicate 3 (5 : ℚ)) (-1) = List.replicate 3 false :=
  C1_amended_all_false 5 3 (-1) (by decide) (Or.inl (by decide))

/-- Claim C3: `detect_anomalies` is a total function (it never raises and
every element of its result is the defined Boolean `true` or `false` by the
type `List Bool` of its codomain), and the length of its output equals the
length of the input series. -/
theorem C3_length_and_total (xs : List ℚ) (t : ℚ) :
    (detect_anomalies xs t).length = xs.length ∧
      ∀ b ∈ detect_anomalies xs t, b = true ∨ b = false := by
  constructor
  · unfold detect_anomalies
    split <;> simp
  · intro b _
    cases b
    · exact Or.inr rfl
    · exact Or.inl rfl

/-- Claim C3 witness: the theorem at the concrete series `[1, 2]` with
threshold `5/2`. -/
theorem C3_witness :
    (detect_anomalies [(1 : ℚ), 2] (5 / 2)).length = ([(1 : ℚ), 2]).length ∧
      ∀ b ∈ detect_anomalies [(1 : ℚ), 2] (5 / 2), b = true ∨ b = false :=
  C3_length_and_total [(1 : ℚ), 2] (5 / 2)

/-- A key lookup misses exactly when no row of the table carries the key. -/
lemma keyLookup_eq_none_iff (t : List (Key × ℚ)) (k : Key) :
    keyLookup t k = none ↔ ∀ v : ℚ, (k, v) ∉ t := by
  unfold keyLookup
  rw [Option.map_eq_none', List.find?_eq_none]
  constructor
  · intro h v hv
    have hp := h (k, v) hv
    simp at hp
  · intro h r hr
    intro hk
    rw [decide_eq_true_iff] at hk
    obtain ⟨a, b⟩ := r
    apply h b
    rw [← hk]
    exact hr

lemma exists_of_keyLookup_ne_none (t : List (Key × ℚ)) (k : Key)
    (h : keyLookup t k ≠ none) : ∃ v, (k, v) ∈ t := by
  by_contra hc
  push_neg at hc
  exact h ((keyLookup_eq_none_iff t k).mpr hc)

/-- Claim C2: when the guard `series.std() == 0` is not taken (the sample
standard deviation is not the number zero), element `i` is flagged anomalous
iff the absolute value of its standardized score
`(value − mean) / standard-deviation` (population standard deviation
`sqrt popVar`, as computed by `scipy.stats.zscore`) strictly exceeds the
threshold, where an undefined (NaN, `popVar = 0`) standardized score is
replaced by zero before the comparison. -/
theorem C2_zscore_thresholding (xs : List ℚ) (t x : ℚ) (i : ℕ)
    (hguard : sampleStdIsZero xs = false) (hx : xs.get? i = some x) :
    ((detect_anomalies xs t).get? i = some true ↔
      |(if popVar xs = 0 then (0 : ℝ)
        else (((x : ℝ) - (mean xs : ℝ)) / Real.sqrt ((popVar xs : ℝ))))| >
        (t : ℝ)) := by
  have hda : (detect_anomalies xs t).get? i = some (zflag xs t x) := by
    unfold detect_anomalies
    rw [if_neg (by simp [hguard])]
    rw [List.get?_map, hx, Option.map_some']
  rw [hda, Option.some_inj]
  by_cases hv : popVar xs = 0
  · simp only [zflag, if_pos hv, gt_iff_lt, abs_zero, decide_eq_true_iff]
    constructor
    · intro h
      exact_mod_cast h
    · intro h
      exact_mod_cast h
  · have hvpos : (0 : ℚ) < popVar xs :=
      lt_of_le_of_ne (popVar_nonneg xs) (Ne.symm hv)
    have hvposR : (0 : ℝ) < ((popVar xs : ℚ) : ℝ) := by exact_mod_cast hvpos
    have hd : ((x : ℝ) - ((mean xs : ℚ) : ℝ)) = (((x - mean xs : ℚ)) : ℝ) := by
      push_cast
      ring
    simp only [zflag, if_neg hv, decide_eq_true_iff]
    rw [hd, abs_div, abs_of_nonneg (Real.sqrt_nonneg _),
      abs_div_sqrt_gt_iff _ _ _ hvposR]
    constructor
    · rintro (h | h)
      · exact Or.inl (by exact_mod_cast h)
      · exact Or.inr (by exact_mod_cast h)
    · rintro (h | h)
      · exact Or.inl (by exact_mod_cast h)
      · exact Or.inr (by exact_mod_cast h)

/-- Claim C2 witness: the theorem at the series `[0, 4]` (sample standard
deviation nonzero), threshold `1`, element `0`. -/
theorem C2_witness :
    ((detect_anomalies [(0 : ℚ), 4] 1).get? 0 = some true ↔
      |(if popVar [(0 : ℚ), 4] = 0 then (0 : ℝ)
        else ((((0 : ℚ) : ℝ) - (mean [(0 : ℚ), 4] : ℝ)) /
          Real.sqrt ((popVar [(0 : ℚ), 4] : ℝ))))| > ((1 : ℚ) : ℝ)) :=
  C2_zscore_thresholding [(0 : ℚ), 4] 1 0 0
    (by norm_num [sampleStdIsZero, sqDevSum, mean]) rfl

/-- Claim C4: `temporal_concentration` returns exactly `0.0` when the series
mean is exactly zero (a defined value, not an error and not NaN), and
`std(series) / mean(series)` otherwise: for at least two elements that
quotient is `sqrt (sqDevSum / (n - 1)) / mean` (ddof = 1), and for fewer the
sample standard deviation, hence the quotient, is NaN (`none`). -/
theorem C4_temporal_concentration (xs : List ℚ) (mu : ℚ)
    (hm : pandasMean xs = some mu) :
    (mu = 0 → temporal_concentration xs = some 0) ∧
      (mu ≠ 0 → 2 ≤ xs.length →
        temporal_concentration xs =
          some (Real.sqrt ((sqDevSum xs : ℝ) / ((xs.length : ℝ) - 1)) /
            (mu : ℝ))) ∧
      (mu ≠ 0 → xs.length < 2 → temporal_concentration xs = none) := by
  have htc : temporal_concentration xs =
      if mu = 0 then some 0 else (pandasStd xs).map (fun s => s / (mu : ℝ)) := by
    unfold temporal_concentration
    rw [hm]
  refine ⟨?_, ?_, ?_⟩
  · intro h0
    rw [htc, if_pos h0]
  · intro hne hlen
    rw [htc, if_neg hne]
    unfold pandasStd
    rw [if_pos hlen]
    simp only [Option.map_some']
    congr 2
    push_cast
    ring
  · intro hne hlen
    rw [htc, if_neg hne]
    unfold pandasStd
    rw [if_neg (by omega)]
    rfl

/-- Claim C4 witness: the series `[1, -1]` has mean exactly zero and
`temporal_concentration` returns exactly `0`. -/
theorem C4_witness : temporal_concentration [(1 : ℚ), -1] = some 0 :=
  (C4_temporal_concentration [(1 : ℚ), -1] 0
    (by
      unfold pandasMean
      rw [if_neg (List.cons_ne_nil _ _)]
      norm_num [mean])).1 rfl

/-- Claim C5 counterexample: on the single-element series `[5]` (single value
nonzero, hence mean nonzero) `temporal_concentration` does NOT return the
defined fallback `0.0`: the pandas sample standard deviation of one element
is NaN, so the function returns `NaN / 5 = NaN` (`none`), an undefined
value. -/
theorem C5_counterexample :
    temporal_concentration [(5 : ℚ)] = none ∧
      temporal_concentration [(5 : ℚ)] ≠ some 0 := by
  have hm : pandasMean [(5 : ℚ)] = some 5 := by
    unfold pandasMean
    rw [if_neg (List.cons_ne_nil _ _)]
    norm_num [mean]
  have htc : temporal_concentration [(5 : ℚ)] =
      if (5 : ℚ) = 0 then some 0
      else (pandasStd [(5 : ℚ)]).map (fun s => s / ((5 : ℚ) : ℝ)) := by
    unfold temporal_concentration
    rw [hm]
  have h : temporal_concentration [(5 : ℚ)] = none := by
    rw [htc, if_neg (by norm_num)]
    unfold pandasStd
    rw [if_neg (by norm_num)]
    rfl
  refine ⟨h, ?_⟩
  rw [h]
  exact fun hc => Option.noConfusion hc

/-- Claim C5 (amended): for a single-element series `temporal_concentration`
returns the defined value `0.0` only when the single value is zero (the
zero-mean guard); when the single value is nonzero the result is the
undefined NaN value (`none`), because the sample standard deviation of a
one-element series is NaN and the code divides it by the mean. -/
theorem C5_amended_single (x : ℚ) :
    temporal_concentration [x] = if x = 0 then some 0 else none := by
  have hm : pandasMean [x] = some x := by
    unfold pandasMean
    rw [if_neg (List.cons_ne_nil _ _)]
    norm_num [mean]
  have htc : temporal_concentration [x] =
      if x = 0 then some 0
      else (pandasStd [x]).map (fun s => s / (x : ℝ)) := by
    unfold temporal_concentration
    rw [hm]
  rw [htc]
  by_cases hx : x = 0
  · rw [if_pos hx, if_pos hx]
  · rw [if_neg hx, if_neg hx]
    unfold pandasStd
    rw [if_neg (by norm_num)]
    rfl

/-- Claim C10: `detect_anomalies` is antitone in its threshold: for thresholds
`t1 ≤ t2`, every element flagged anomalous at `t2` is also flagged at `t1`. -/
theorem C10_threshold_antitone (xs : List ℚ) (t1 t2 : ℚ) (i : ℕ)
    (hle : t1 ≤ t2)
    (h2 : (detect_anomalies xs t2).get? i = some true) :
    (detect_anomalies xs t1).get? i = some true := by
  unfold detect_anomalies at h2 ⊢
  by_cases hg : sampleStdIsZero xs = true
  · rw [if_pos hg] at h2
    rw [List.get?_map] at h2
    rcases hx : xs.get? i with _ | x
    · rw [hx] at h2
      exact absurd h2 (by simp)
    · rw [hx] at h2
      exact absurd h2 (by simp)
  · rw [if_neg hg] at h2 ⊢
    rw [List.get?_map] at h2 ⊢
    rcases hx : xs.get? i with _ | x
    · rw [hx] at h2
      exact absurd h2 (by simp)
    · rw [hx] at h2
      simp only [Option.map_some', Option.some_inj] at h2 ⊢
      exact zflag_antitone xs hle h2

/-- Claim C10 witness: in the series `[0, 4]` the first element is flagged
at threshold `9/10` and hence also at the lower threshold `1/2`. -/
theorem C10_witness :
    (detect_anomalies [(0 : ℚ), 4] (1 / 2)).get? 0 = some true :=
  C10_threshold_antitone [(0 : ℚ), 4] (1 / 2) (9 / 10) 0 (by norm_num)
    (by norm_num [detect_anomalies, sampleStdIsZero, sqDevSum, mean, zflag, popVar])

/-- Claim C6 counterexample: a region column with exactly one distinct
non-null value has `nunique = 1`, and `check_region_coverage` does NOT signal
(its test is `nunique < 1`, so it only fires at zero distinct regions),
refuting the claim that one distinct value signals low coverage. -/
theorem C6_counterexample :
    nunique [some "Pune"] = 1 ∧
      check_region_coverage [some "Pune"] = Except.ok () := by
  constructor
  · rfl
  · rfl

/-- Claim C6 (amended): `check_region_coverage` signals the low-coverage
condition exactly when the number of distinct non-null region identifiers is
below the code's minimum threshold of 1, i.e. when it is zero; in particular
a column with exactly one distinct non-null value never signals. -/
theorem C6_amended_coverage :
    (∀ col : List (Option String),
        (check_region_coverage col =
            Except.error "Low regional coverage detected" ↔
          nunique col = 0)) ∧
      ∀ s : String, check_region_coverage [some s] = Except.ok () := by
  constructor
  · intro col
    unfold check_region_coverage
    by_cases h : nunique col < 1
    · rw [if_pos h]
      simp [Nat.lt_one_iff.mp h]
    · rw [if_neg h]
      constructor
      · intro hc
        exact Except.noConfusion hc
      · intro h0
        exact absurd h0 (by omega)
  · intro s
    have hn : nunique [some s] = 1 := rfl
    unfold check_region_coverage
    rw [if_neg (show ¬nunique [some s] < 1 by omega)]

/-- Claim C7: consolidation (`pd.merge(..., how="outer").fillna(0)`) produces
the union of the key tuples of the two aggregates: a key appears in the
merged table iff it appears in either source, a key present only in the left
source gets its right numeric value filled with zero (and symmetrically), and
on the spec §8 scenario — enrolments {(MH, Pune, 2025, 1, 100),
(MH, Pune, 2025, 2, 120)}, demographic {(MH, Pune, 2025, 1, 80)} — the
consolidated table is exactly the two rows (…, 1, 100, 80) and
(…, 2, 120, 0). -/
theorem C7_consolidation :
    (∀ (t1 t2 : List (Key × ℚ)) (k : Key),
        ((∃ v1 v2, (k, v1, v2) ∈ outerMergeFill0 t1 t2) ↔
          (∃ v, (k, v) ∈ t1) ∨ (∃ v, (k, v) ∈ t2))) ∧
      (∀ (t1 t2 : List (Key × ℚ)) (k : Key) (v1 : ℚ),
        (k, v1) ∈ t1 → keyLookup t2 k = none →
          (k, v1, (0 : ℚ)) ∈ outerMergeFill0 t1 t2) ∧
      (∀ (t1 t2 : List (Key × ℚ)) (k : Key) (v2 : ℚ),
        (k, v2) ∈ t2 → keyLookup t1 k = none →
          (k, (0 : ℚ), v2) ∈ outerMergeFill0 t1 t2) ∧
      outerMergeFill0 enrolScenario demoScenario =
        [(⟨"MH", "Pune", 2025, 1⟩, 100, 80),
         (⟨"MH", "Pune", 2025, 2⟩, 120, 0)] := by
  refine ⟨?_, ?_, ?_, ?_⟩
  · intro t1 t2 k
    constructor
    · rintro ⟨v1, v2, hm⟩
      rcases List.mem_append.1 hm with hl | hr
      · rcases List.mem_map.1 hl with ⟨r, hr1, heq⟩
        have hk : r.1 = k := congrArg (fun p => p.1) heq
        left
        refine ⟨r.2, ?_⟩
        rw [← hk, Prod.mk.eta]
        exact hr1
      · rcases List.mem_map.1 hr with ⟨r, hr1, heq⟩
        have hk : r.1 = k := congrArg (fun p => p.1) heq
        right
        refine ⟨r.2, ?_⟩
        rw [← hk, Prod.mk.eta]
        exact (List.mem_filter.1 hr1).1
    · rintro (⟨v, hv⟩ | ⟨v, hv⟩)
      · exact ⟨v, (keyLookup t2 k).getD 0,
          List.mem_append_left _ (List.mem_map.2 ⟨(k, v), hv, rfl⟩)⟩
      · by_cases hl : keyLookup t1 k = none
        · refine ⟨0, v, List.mem_append_right _
            (List.mem_map.2 ⟨(k, v), ?_, rfl⟩)⟩
          exact List.mem_filter.2 ⟨hv, by simp [hl]⟩
        · rcases exists_of_keyLookup_ne_none t1 k hl with ⟨v1, hv1⟩
          exact ⟨v1, (keyLookup t2 k).getD 0,
            List.mem_append_left _ (List.mem_map.2 ⟨(k, v1), hv1, rfl⟩)⟩
  · intro t1 t2 k v1 h1 h2
    apply List.mem_append_left
    exact List.mem_map.2 ⟨(k, v1), h1, by simp [h2]⟩
  · intro t1 t2 k v2 h1 h2
    apply List.mem_append_right
    exact List.mem_map.2 ⟨(k, v2), List.mem_filter.2 ⟨h1, by simp [h2]⟩, rfl⟩
  · rfl

/-- Claim C7 witness: the fill-with-zero clause applied at the scenario's
month-2 key, which is present only in the enrolment aggregate: the
consolidated table holds the row (MH, Pune, 2025, 2) with enrolments 120 and
total_updates 0. -/
theorem C7_witness :
    ((⟨"MH", "Pune", 2025, 2⟩ : Key), (120 : ℚ), (0 : ℚ)) ∈
      outerMergeFill0 enrolScenario demoScenario :=
  C7_consolidation.2.1 enrolScenario demoScenario ⟨"MH", "Pune", 2025, 2⟩ 120
    (by simp [enrolScenario]) (by rfl)

/-- A column of non-null region identifiers drawn from a nonempty table has a
nonzero count of distinct values. -/
lemma nunique_all_some (l : List (Key × ℚ × ℚ)) (f : Key × ℚ × ℚ → String)
    (h : l ≠ []) : nunique (l.map (fun r => some (f r))) ≠ 0 := by
  unfold nunique
  rw [List.filterMap_map, Function.id_comp]
  rw [show (fun (r : Key × ℚ × ℚ) => some (f r)) = some ∘ f from rfl,
    List.filterMap_eq_map]
  intro hlen
  rw [List.length_eq_zero, List.dedup_eq_nil] at hlen
  exact h (List.map_eq_nil.mp hlen)

/-- Claim C8: when the optional biometric source is entirely absent
(`bio = none`), the pipeline run does not abort: the biometric load,
aggregation and merge are skipped and the run completes, returning the
consolidated table without a `biometric_updates` column (`ConsTable.noBio`),
provided the remaining inputs pass their own validations (nonempty required
sources and nonnegative consolidated columns). -/
theorem C8_bio_absent_completes (enrol demo : List (Key × ℚ))
    (h1 : enrol ≠ []) (h2 : demo ≠ [])
    (hv1 : validate_non_negative
        ((ConsTable.noBio (outerMergeFill0 enrol demo)).enrolments) =
      Except.ok ())
    (hv2 : validate_non_negative
        ((ConsTable.noBio (outerMergeFill0 enrol demo)).total_updates) =
      Except.ok ()) :
    run_consolidation enrol demo none =
      Except.ok (ConsTable.noBio (outerMergeFill0 enrol demo)) := by
  have hc1 : check_empty enrol = Except.ok () := by
    unfold check_empty
    rw [if_neg h1]
  have hc2 : check_empty demo = Except.ok () := by
    unfold check_empty
    rw [if_neg h2]
  have hbase : outerMergeFill0 enrol demo ≠ [] := by
    intro hcontra
    unfold outerMergeFill0 at hcontra
    rcases List.append_eq_nil.mp hcontra with ⟨hmap, -⟩
    exact h1 (List.map_eq_nil.mp hmap)
  have hnu : nunique ((ConsTable.noBio (outerMergeFill0 enrol demo)).districts)
      ≠ 0 :=
    nunique_all_some (outerMergeFill0 enrol demo) (fun r => r.1.district) hbase
  have hcov : check_region_coverage
      ((ConsTable.noBio (outerMergeFill0 enrol demo)).districts) =
      Except.ok () := by
    unfold check_region_coverage
    rw [if_neg (by omega)]
  simp only [run_consolidation, hc1, hc2, hv1, hv2, hcov, bind, Except.bind]
  rfl

/-- Claim C8 witness: a one-row enrolment aggregate and a one-row demographic
aggregate with no biometric source complete the run with the two-column
consolidated table. -/
theorem C8_witness :
    run_consolidation [((⟨"MH", "Pune", 2025, 1⟩ : Key), (100 : ℚ))]
        [((⟨"MH", "Pune", 2025, 1⟩ : Key), (80 : ℚ))] none =
      Except.ok (ConsTable.noBio (outerMergeFill0
        [((⟨"MH", "Pune", 2025, 1⟩ : Key), (100 : ℚ))]
        [((⟨"MH", "Pune", 2025, 1⟩ : Key), (80 : ℚ))])) :=
  C8_bio_absent_completes _ _ (by simp) (by simp) (by rfl) (by rfl)

/-- Claim C9: the diversity feature passed into the composite indicator
computation is the constant placeholder `1` for every row, independent of the
input data: any two scoring functions that agree at diversity `1` yield the
same LEPI column on every input, so the pipeline only ever evaluates the
scorer at diversity `1`. -/
theorem C9_diversity_constant_one
    (compute compute' : ℚ → ℚ → Option ℝ → LepiWeights → ℝ)
    (w : LepiWeights) (rows : List (Key × ℚ × ℚ)) (tcCol : List (Option ℝ))
    (hagree : ∀ (f : ℚ) (tc : Option ℝ), compute f 1 tc w = compute' f 1 tc w) :
    lepiStage compute w rows tcCol = lepiStage compute' w rows tcCol := by
  unfold lepiStage
  induction rows generalizing tcCol with
  | nil => simp
  | cons r rs ih =>
    cases tcCol with
    | nil => simp
    | cons tc tcs =>
      simp only [List.zipWith_cons_cons]
      rw [hagree r.2.2 tc, ih tcs]

/-- Claim C9 witness: the scorers `f * d` and `f` agree at diversity 1, so the
pipeline stage cannot distinguish them on a concrete one-row table. -/
theorem C9_witness :
    lepiStage (fun f d _ _ => (f : ℝ) * (d : ℝ)) ⟨1, 1, 1⟩
        [((⟨"MH", "Pune", 2025, 1⟩ : Key), (100 : ℚ), (80 : ℚ))] [none] =
      lepiStage (fun f _ _ _ => (f : ℝ)) ⟨1, 1, 1⟩
        [((⟨"MH", "Pune", 2025, 1⟩ : Key), (100 : ℚ), (80 : ℚ))] [none] :=
  C9_diversity_constant_one _ _ ⟨1, 1, 1⟩ _ _
    (fun f tc => by rw [Rat.cast_one, mul_one])

end ALEIS
